import Mathlib

/-!
Verification development for `infercnvpy/tl/_copykat.py`.

The repository contains a single adapter function `copykat` that marshals an
annotated expression matrix to the external R routine `copykat`, invokes it,
and post-processes the tabular result.  The definitions below are a shallow
embedding of that function, translated line by line from the source:

* lines 73-76: effective worker-count computation (`effectiveNJobs`);
* lines 78-93: dependency checks on rpy2 and the R packages copykat/stringr,
  modelled by availability flags in `Env`;
* lines 96-101: expression-matrix selection and sparse/dense conversion
  (`convertExpr`); note line 97 references the name `tmp_adata`, which is
  bound nowhere in the module, so the `layer is not None` branch raises a
  Python `NameError` — modelled faithfully as an error;
* lines 102-123: transfer of the matrix, identifiers and scalars, and the
  external call (the R routine is a black box, modelled by `Env.external`);
  line 121 rewrites every literal period in the result's column labels to a
  hyphen (`replacePeriods`, `relabelTable`);
* lines 130-137: construction of the `chr_pos` mapping (`chromPosOf`);
* lines 139-143: dropping the metadata columns and transposing (`outputOf`);
* lines 145-149: the in-place/return branch (`postProcess`).

Machine scalars are modelled as `Int`/`Nat`/`Rat`; pandas `DataFrame` cells
as `PVal` (string or integer values); Python dictionaries as association
lists with dict-assignment semantics (`alistSet` replaces in place or
appends).  Failure (ImportError, NameError, KeyError) is modelled with
`Except`.  The pandas index of the converted result table is modelled as a
list of integers (the `int(pos)` cast on an index label is the identity).
-/

/-- A pandas cell value: either a string or an integer. -/
inductive PVal where
  | s (v : String)
  | i (v : Int)
deriving DecidableEq, Repr

/-- Python `f"chr{x}"`-style formatting of a cell value: strings are used
verbatim, integers printed in decimal. -/
def PVal.format : PVal → String
  | .s v => v
  | .i v => toString v

/-- Lookup in an association list (first binding wins), the read half of a
Python dict. -/
def alistLookup {α : Type} (k : String) : List (String × α) → Option α
  | [] => none
  | (k', v) :: rest => if k' = k then some v else alistLookup k rest

/-- Python dict assignment `m[k] = v`: replace the binding in place if the
key is present, otherwise append it. -/
def alistSet {α : Type} (m : List (String × α)) (k : String) (v : α) : List (String × α) :=
  match m with
  | [] => [(k, v)]
  | (k', v') :: rest => if k' = k then (k, v) :: rest else (k', v') :: alistSet rest k v

/-- `str_replace_all(x, "\\.", "-")` from line 121: every literal period
character becomes a hyphen (the regex `\.` matches exactly the period
characters, so the replacement is a per-character map). -/
def replacePeriods (s : String) : String :=
  ⟨s.data.map (fun ch => if ch = '.' then '-' else ch)⟩

/-- A dense numeric 2-D array (numpy), with explicit dimensions. -/
structure DenseMat where
  nrows : Nat
  ncols : Nat
  rows : List (List Int)
deriving DecidableEq, Repr

/-- Transpose of a list-of-lists matrix with explicit dimensions
(numpy `.T`): entry `(j, i)` of the result is entry `(i, j)` of the input. -/
def transposeLL {α : Type} (nrows ncols : Nat) (m : List (List α)) (d : α) : List (List α) :=
  (List.range ncols).map (fun j => (List.range nrows).map (fun i => ((m.getD i []).getD j d)))

/-- numpy `.T` on a dense array. -/
def DenseMat.transpose (m : DenseMat) : DenseMat :=
  ⟨m.ncols, m.nrows, transposeLL m.nrows m.ncols m.rows 0⟩

/-- A scipy sparse matrix in coordinate form: a list of
`(row, column, value)` entries together with the shape. -/
structure SparseMat where
  nrows : Nat
  ncols : Nat
  entries : List (Nat × Nat × Int)
deriving DecidableEq, Repr

/-- Sum of the sparse entries at coordinate `(i, j)` (scipy `.toarray()`
sums duplicate coordinate entries). -/
def entrySum (i j : Nat) : List (Nat × Nat × Int) → Int
  | [] => 0
  | e :: rest => (if e.1 = i ∧ e.2.1 = j then e.2.2 else 0) + entrySum i j rest

/-- scipy `.toarray()`: densify a sparse matrix. -/
def SparseMat.toarray (s : SparseMat) : DenseMat :=
  ⟨s.nrows, s.ncols,
    (List.range s.nrows).map (fun i => (List.range s.ncols).map (fun j => entrySum i j s.entries))⟩

/-- scipy `.T` on a sparse matrix: swap the shape and the coordinates. -/
def SparseMat.transpose (s : SparseMat) : SparseMat :=
  ⟨s.ncols, s.nrows, s.entries.map (fun e => (e.2.1, e.1, e.2.2))⟩

/-- The expression matrix held by the analysis object: dense or sparse
(`scipy.sparse.issparse` dispatch at line 98). -/
inductive ExprMat where
  | dense (m : DenseMat)
  | sparse (s : SparseMat)
deriving DecidableEq, Repr

/-- Lines 98-101: `expr.T.toarray()` when sparse, `expr.T` when dense. -/
def convertExpr : ExprMat → DenseMat
  | .sparse s => (SparseMat.transpose s).toarray
  | .dense m => m.transpose

/-- The result table `copyKAT_run$CNAmat` after conversion to pandas: an
integer index plus labeled columns of cell values. -/
structure ResultTable where
  index : List Int
  cols : List (String × List PVal)
deriving DecidableEq, Repr

/-- Line 121 applied to the whole table: relabel every column through
`replacePeriods`. -/
def relabelTable (t : ResultTable) : ResultTable :=
  ⟨t.index, t.cols.map (fun c => (replacePeriods c.1, c.2))⟩

/-- The three metadata column labels dropped at line 140. -/
def metaLabels : List String := ["chrom", "chrompos", "abspos"]

/-- The non-metadata (per-cell) columns of a result table. -/
def dataColumns (t : ResultTable) : List (String × List PVal) :=
  t.cols.filter (fun c => ¬ c.1 ∈ metaLabels)

/-- Errors of the Python layer that the adapter can raise. -/
inductive PyError where
  | importError (msg : String)
  | nameError (name : String)
  | keyError (msg : String)
deriving DecidableEq, Repr

/-- `drop(["chrom", "chrompos", "abspos"], axis=1)` (line 140): pandas
raises `KeyError` when any label to drop is absent, otherwise removes every
column carrying one of the labels. -/
def dropMeta (t : ResultTable) : Except PyError (List (String × List PVal)) :=
  if metaLabels.all (fun l => t.cols.any (fun c => c.1 = l)) then
    .ok (dataColumns t)
  else
    .error (.keyError "labels not found in axis")

/-- `drop_duplicates()` on the one-column frame of line 133: keep the first
row for each distinct chromosome value; `seen` accumulates values already
kept. -/
def dedupAux (seen : List PVal) : List (Int × PVal) → List (Int × PVal)
  | [] => []
  | p :: rest => if p.2 ∈ seen then dedupAux seen rest else p :: dedupAux (p.2 :: seen) rest

/-- First-occurrence deduplication of `(index, chrom)` rows by their
chromosome value. -/
def dedupBySnd (l : List (Int × PVal)) : List (Int × PVal) :=
  dedupAux [] l

/-- The dict comprehension of lines 131-136: for each retained
`(pos, chrom)` row, in order, set key `"chr" + str(chrom)` to `int(pos)`. -/
def buildChromPos (l : List (Int × PVal)) : List (String × Int) :=
  l.foldl (fun m p => alistSet m ("chr" ++ p.2.format) p.1) []

/-- Lines 130-137: select the `chrom` column (`KeyError` when absent), zip
it with the index, deduplicate by chromosome, and build the mapping. -/
def chromPosOf (t : ResultTable) : Except PyError (List (String × Int)) :=
  match t.cols.find? (fun c => c.1 = "chrom") with
  | none => .error (.keyError "chrom")
  | some c => .ok (buildChromPos (dedupBySnd (t.index.zip c.2)))

/-- `.values` on the dropped table (line 140): the row-major cell matrix,
one row per table row, one entry per remaining column. -/
def valuesOf (nrows : Nat) (cols : List (String × List PVal)) : List (List PVal) :=
  (List.range nrows).map (fun r => cols.map (fun c => c.2.getD r (PVal.i 0)))

/-- Lines 139-143: drop the metadata columns, take the values and
transpose (`new_cpkat_trans`). -/
def outputOf (t : ResultTable) : Except PyError (List (List PVal)) :=
  match dropMeta t with
  | .error e => .error e
  | .ok kept => .ok (transposeLL t.index.length kept.length (valuesOf t.index.length kept) (PVal.i 0))

/-- The `chr_pos` wrapper dict stored in `adata.uns` (line 131/146). -/
abbrev UnsMapping := List (String × List (String × Int))

/-- The caller-owned AnnData object: expression matrix, layers, the two
identifier indices, and the two annotation slot families the function may
write (`uns`, `obsm`). -/
structure AnnData where
  X : ExprMat
  layers : List (String × ExprMat)
  obsNames : List String
  varNames : List String
  uns : List (String × UnsMapping)
  obsm : List (String × List (List PVal))
deriving DecidableEq, Repr

/-- Everything transferred across the runtime boundary for the external
call of lines 102-119: the raw matrix, its row/column labels, and the
scalar configuration (including the fixed `win.size = 25`,
`norm.cell.names = ""` and `output.seg = FALSE`). -/
structure ExternalCall where
  rawmat : DenseMat
  gene_names : List String
  cell_IDs : List String
  id_type : String
  ngene_chr : Nat
  win_size : Nat
  KS_cut : Rat
  sam_name : String
  distance : String
  norm_cell_names : String
  n_cores : Nat
  output_seg : Bool

/-- The host environment: platform name and core count (`os.name`,
`cpu_count()`), availability of rpy2 and of the two R packages, and the
black-box external routine returning the `CNAmat` result table. -/
structure Env where
  osName : String
  cpuCount : Nat
  rpy2Available : Bool
  copykatAvailable : Bool
  stringrAvailable : Bool
  external : ExternalCall → ResultTable

/-- Lines 73-76: default the worker count to `cpu_count()` when unset, then
force it to 1 on every non-POSIX platform. -/
def effectiveNJobs (osName : String) (cpuCount : Nat) (n_jobs : Option Nat) : Nat :=
  let n := match n_jobs with
    | none => cpuCount
    | some k => k
  if osName ≠ "posix" then 1 else n

/-- Lines 102-119 bundled: the call record handed to the external routine. -/
def mkCall (expr : DenseMat) (gene_names cell_IDs : List String) (gene_ids : String)
    (segmentation_cut : Rat) (distance s_name : String) (min_genes_chr : Nat)
    (n_cores : Nat) : ExternalCall :=
  { rawmat := expr, gene_names := gene_names, cell_IDs := cell_IDs, id_type := gene_ids,
    ngene_chr := min_genes_chr, win_size := 25, KS_cut := segmentation_cut,
    sam_name := s_name, distance := distance, norm_cell_names := "",
    n_cores := n_cores, output_seg := false }

/-- Lines 130-149: build `chr_pos`, build the transposed output matrix, and
either write both into the analysis object (`inplace`) returning `None`, or
return the matrix leaving the object untouched. -/
def postProcess (adata : AnnData) (key_added : String) (inplace : Bool) (t : ResultTable) :
    Except PyError (AnnData × Option (List (List PVal))) :=
  match chromPosOf t with
  | .error e => .error e
  | .ok cp =>
    match outputOf t with
    | .error e => .error e
    | .ok out =>
      if inplace then
        .ok ({ adata with
                uns := alistSet adata.uns key_added [("chr_pos", cp)],
                obsm := alistSet adata.obsm ("X_" ++ key_added) out }, none)
      else
        .ok (adata, some out)

/-- The adapter function `copykat` of `_copykat.py`, as a pure pipeline.
The returned pair carries the (possibly updated) analysis object and the
optional returned matrix; every raised Python exception is an `Except`
error.  The branch order follows the source: worker count (73-76), the
rpy2 check (78-84), the R package check (86-93), expression selection and
conversion (96-101) — where a named layer hits the unbound name
`tmp_adata` of line 97 — external call (102-123), result post-processing
(125-149). -/
def copykat (env : Env) (adata : AnnData) (gene_ids : String) (segmentation_cut : Rat)
    (distance : String) (s_name : String) (min_genes_chr : Nat) (key_added : String)
    (inplace : Bool) (layer : Option String) (n_jobs : Option Nat) :
    Except PyError (AnnData × Option (List (List PVal))) :=
  let n_cores := effectiveNJobs env.osName env.cpuCount n_jobs
  if env.rpy2Available = false then
    .error (.importError "copyKAT requires rpy2 to be installed. ")
  else if (env.copykatAvailable && env.stringrAvailable) = false then
    .error (.importError
      "copyKAT requires a valid R installation with the following packages: copykat, stringr")
  else
    match layer with
    | some _ => .error (.nameError "tmp_adata")
    | none =>
      let expr := convertExpr adata.X
      let call := mkCall expr adata.varNames adata.obsNames gene_ids segmentation_cut
        distance s_name min_genes_chr n_cores
      postProcess adata key_added inplace (relabelTable (env.external call))

/-- First position of a value in a list (0 when absent past the end);
mirrors the "keep first occurrence" reading of `drop_duplicates`. -/
def firstIdx : List PVal → PVal → Nat
  | [], _ => 0
  | w :: c, v => if w = v then 0 else firstIdx c v + 1

/-! ### List helper lemmas -/

theorem getD_map_range {α : Type} (f : Nat → α) {n i : Nat} (d : α) (h : i < n) :
    ((List.range n).map f).getD i d = f i := by
  rw [List.getD_eq_getElem?_getD, List.getElem?_map, List.getElem?_range h]
  rfl

theorem getD_map_of_lt {α β : Type} (g : α → β) (l : List α) {j : Nat} (d : β)
    (hj : j < l.length) : (l.map g).getD j d = g l[j] := by
  rw [List.getD_eq_getElem?_getD, List.getElem?_map, List.getElem?_eq_getElem hj]
  rfl

theorem range_map_getD {α : Type} (l : List α) (d : α) {n : Nat} (hn : l.length = n) :
    (List.range n).map (fun i => l.getD i d) = l := by
  subst hn
  apply List.ext_getElem?
  intro m
  by_cases h : m < l.length
  · rw [List.getElem?_map, List.getElem?_range h, List.getElem?_eq_getElem h]
    simp [List.getD_eq_getElem?_getD, List.getElem?_eq_getElem h]
  · rw [List.getElem?_eq_none (by simpa using Nat.le_of_not_lt h),
      List.getElem?_eq_none (by omega)]

/-! ### Sparse/dense conversion (lines 96-101) -/

theorem entrySum_swap (i j : Nat) (entries : List (Nat × Nat × Int)) :
    entrySum i j (entries.map (fun e => (e.2.1, e.1, e.2.2))) = entrySum j i entries := by
  induction entries with
  | nil => rfl
  | cons e rest ih =>
    simp only [List.map_cons, entrySum]
    rw [ih]
    congr 1
    exact if_congr and_comm rfl rfl

/-- Transposing a sparse matrix and then densifying gives the same dense
array as densifying first and transposing: the two branches of lines
98-101 agree on equal data. -/
theorem sparse_transpose_toarray (s : SparseMat) :
    (SparseMat.transpose s).toarray = (SparseMat.toarray s).transpose := by
  unfold SparseMat.transpose SparseMat.toarray DenseMat.transpose transposeLL
  simp only [DenseMat.mk.injEq, true_and]
  apply List.map_congr_left
  intro a ha
  apply List.map_congr_left
  intro b hb
  have ha' : a < s.ncols := List.mem_range.mp ha
  have hb' : b < s.nrows := List.mem_range.mp hb
  rw [entrySum_swap]
  rw [getD_map_range (fun i => (List.range s.ncols).map (fun j => entrySum i j s.entries)) [] hb',
    getD_map_range (fun j => entrySum b j s.entries) 0 ha']

theorem convertExpr_sparse_dense (s : SparseMat) (d : DenseMat)
    (h : SparseMat.toarray s = d) :
    convertExpr (ExprMat.sparse s) = convertExpr (ExprMat.dense d) := by
  subst h
  simpa [convertExpr] using sparse_transpose_toarray s

/-! ### Values/transpose of the dropped table (lines 139-143) -/

theorem transposeLL_valuesOf (nrows : Nat) (cols : List (String × List PVal))
    (h : ∀ c ∈ cols, c.2.length = nrows) :
    transposeLL nrows cols.length (valuesOf nrows cols) (PVal.i 0) = cols.map Prod.snd := by
  unfold transposeLL valuesOf
  apply List.ext_getElem?
  intro j
  by_cases hj : j < cols.length
  · rw [List.getElem?_map, List.getElem?_range hj, List.getElem?_map,
      List.getElem?_eq_getElem hj]
    simp only [Option.map_some']
    congr 1
    have hmem : cols[j] ∈ cols := List.getElem_mem hj
    have hlen : (cols[j]).2.length = nrows := h _ hmem
    calc (List.range nrows).map
          (fun i => (((List.range nrows).map
            (fun r => cols.map (fun c => c.2.getD r (PVal.i 0)))).getD i []).getD j (PVal.i 0))
        = (List.range nrows).map (fun i => (cols[j]).2.getD i (PVal.i 0)) := by
          apply List.map_congr_left
          intro i hi
          have hi' : i < nrows := List.mem_range.mp hi
          rw [getD_map_range (fun r => cols.map (fun c => c.2.getD r (PVal.i 0))) [] hi',
            getD_map_of_lt (fun c => c.2.getD i (PVal.i 0)) cols (PVal.i 0) hj]
      _ = (cols[j]).2 := range_map_getD _ _ hlen
  · rw [List.getElem?_eq_none, List.getElem?_eq_none]
    · simpa using Nat.le_of_not_lt hj
    · simpa using Nat.le_of_not_lt hj

/-! ### Association-list lemmas (Python dict semantics) -/

theorem alistLookup_set_self {α : Type} (m : List (String × α)) (k : String) (v : α) :
    alistLookup k (alistSet m k v) = some v := by
  induction m with
  | nil => simp [alistSet, alistLookup]
  | cons p rest ih =>
    obtain ⟨a, b⟩ := p
    by_cases h : a = k
    · simp [alistSet, h, alistLookup]
    · simp [alistSet, h, alistLookup, ih]

theorem alistLookup_set_other {α : Type} (m : List (String × α)) (k k' : String) (v : α)
    (h : k ≠ k') : alistLookup k (alistSet m k' v) = alistLookup k m := by
  induction m with
  | nil => simp [alistSet, alistLookup, Ne.symm h]
  | cons p rest ih =>
    obtain ⟨a, b⟩ := p
    by_cases ha : a = k'
    · subst ha
      simp [alistSet, alistLookup, Ne.symm h]
    · by_cases hak : a = k
      · simp [alistSet, ha, alistLookup, hak, h]
      · simp [alistSet, ha, alistLookup, hak, ih]

theorem alistSet_keys_mem {α : Type} (m : List (String × α)) (k a : String) (v : α) :
    a ∈ (alistSet m k v).map Prod.fst ↔ a ∈ m.map Prod.fst ∨ a = k := by
  induction m with
  | nil => simp [alistSet]
  | cons p rest ih =>
    obtain ⟨x, y⟩ := p
    by_cases hx : x = k
    · subst hx
      simp [alistSet]
      tauto
    · simp [alistSet, hx, ih]
      tauto

theorem alistSet_keys_nodup {α : Type} (m : List (String × α)) (k : String) (v : α)
    (h : (m.map Prod.fst).Nodup) : ((alistSet m k v).map Prod.fst).Nodup := by
  induction m with
  | nil => simp [alistSet]
  | cons p rest ih =>
    obtain ⟨x, y⟩ := p
    rw [List.map_cons, List.nodup_cons] at h
    by_cases hx : x = k
    · subst hx
      simpa [alistSet, List.nodup_cons] using h
    · rw [alistSet]
      simp only [if_neg hx, List.map_cons, List.nodup_cons]
      refine ⟨?_, ih h.2⟩
      rw [alistSet_keys_mem]
      rintro (hmem | rfl)
      · exact h.1 hmem
      · exact hx rfl

theorem alistSet_append {α : Type} (m : List (String × α)) (k : String) (v : α)
    (h : ¬ k ∈ m.map Prod.fst) : alistSet m k v = m ++ [(k, v)] := by
  induction m with
  | nil => rfl
  | cons p rest ih =>
    obtain ⟨x, y⟩ := p
    simp only [List.map_cons, List.mem_cons] at h
    push_neg at h
    rw [alistSet]
    simp only [if_neg (Ne.symm h.1), List.cons_append, List.cons.injEq, true_and]
    exact ih h.2

/-! ### The dict-comprehension fold of lines 131-136 -/

theorem foldlSet_keys_mem (l : List (Int × PVal)) (m₀ : List (String × Int)) (a : String) :
    a ∈ ((l.foldl (fun m p => alistSet m ("chr" ++ p.2.format) p.1) m₀).map Prod.fst) ↔
      a ∈ m₀.map Prod.fst ∨ ∃ p ∈ l, a = "chr" ++ p.2.format := by
  induction l generalizing m₀ with
  | nil => simp
  | cons q rest ih =>
    rw [List.foldl_cons, ih, alistSet_keys_mem]
    simp only [List.mem_cons]
    constructor
    · rintro ((hm | rfl) | ⟨p, hp, rfl⟩)
      · exact Or.inl hm
      · exact Or.inr ⟨q, Or.inl rfl, rfl⟩
      · exact Or.inr ⟨p, Or.inr hp, rfl⟩
    · rintro (hm | ⟨p, hp | hp, rfl⟩)
      · exact Or.inl (Or.inl hm)
      · subst hp
        exact Or.inl (Or.inr rfl)
      · exact Or.inr ⟨p, hp, rfl⟩

theorem foldlSet_keys_nodup (l : List (Int × PVal)) (m₀ : List (String × Int))
    (h : (m₀.map Prod.fst).Nodup) :
    ((l.foldl (fun m p => alistSet m ("chr" ++ p.2.format) p.1) m₀).map Prod.fst).Nodup := by
  induction l generalizing m₀ with
  | nil => exact h
  | cons q rest ih =>
    rw [List.foldl_cons]
    exact ih _ (alistSet_keys_nodup _ _ _ h)

theorem foldlSet_eq_append (l : List (Int × PVal)) (m₀ : List (String × Int))
    (h : (m₀.map Prod.fst ++ l.map (fun p => "chr" ++ p.2.format)).Nodup) :
    l.foldl (fun m p => alistSet m ("chr" ++ p.2.format) p.1) m₀
      = m₀ ++ l.map (fun p => ("chr" ++ p.2.format, p.1)) := by
  induction l generalizing m₀ with
  | nil => simp
  | cons q rest ih =>
    rcases List.nodup_append.mp h with ⟨h1, h2, hdisj⟩
    have hq : ¬ ("chr" ++ q.2.format) ∈ m₀.map Prod.fst := by
      intro hmem
      exact hdisj hmem (by simp)
    rw [List.foldl_cons, alistSet_append m₀ _ _ hq, ih]
    · simp
    · simp only [List.map_cons] at h
      simp only [List.map_append, List.map_cons, List.map_nil, List.append_assoc,
        List.singleton_append]
      exact h

/-! ### Deduplication (drop_duplicates) lemmas -/

theorem dedupAux_mem_snd (l : List (Int × PVal)) (seen : List PVal) (x : PVal) :
    x ∈ (dedupAux seen l).map Prod.snd ↔ x ∈ l.map Prod.snd ∧ ¬ x ∈ seen := by
  induction l generalizing seen with
  | nil => simp [dedupAux]
  | cons p rest ih =>
    by_cases hp : p.2 ∈ seen
    · rw [dedupAux, if_pos hp, ih]
      simp only [List.map_cons, List.mem_cons]
      constructor
      · rintro ⟨hx, hs⟩
        exact ⟨Or.inr hx, hs⟩
      · rintro ⟨hx | hx, hs⟩
        · subst hx
          exact absurd hp hs
        · exact ⟨hx, hs⟩
    · rw [dedupAux, if_neg hp]
      simp only [List.map_cons, List.mem_cons, ih, List.mem_cons, not_or]
      constructor
      · rintro (rfl | ⟨hx, hne, hs⟩)
        · exact ⟨Or.inl rfl, hp⟩
        · exact ⟨Or.inr hx, hs⟩
      · rintro ⟨rfl | hx, hs⟩
        · exact Or.inl rfl
        · by_cases hxe : x = p.2
          · exact Or.inl hxe
          · exact Or.inr ⟨hx, hxe, hs⟩

theorem dedupAux_snd_nodup (l : List (Int × PVal)) (seen : List PVal) :
    ((dedupAux seen l).map Prod.snd).Nodup := by
  induction l generalizing seen with
  | nil => simp [dedupAux]
  | cons p rest ih =>
    by_cases hp : p.2 ∈ seen
    · rw [dedupAux, if_pos hp]
      exact ih seen
    · rw [dedupAux, if_neg hp, List.map_cons, List.nodup_cons]
      refine ⟨?_, ih (p.2 :: seen)⟩
      rw [dedupAux_mem_snd]
      rintro ⟨-, hs⟩
      exact hs (by simp)

theorem dedupAux_subset (l : List (Int × PVal)) (seen : List PVal) (p : Int × PVal)
    (h : p ∈ dedupAux seen l) : p ∈ l := by
  induction l generalizing seen with
  | nil => simp [dedupAux] at h
  | cons q rest ih =>
    by_cases hq : q.2 ∈ seen
    · rw [dedupAux, if_pos hq] at h
      exact List.mem_cons_of_mem _ (ih seen h)
    · rw [dedupAux, if_neg hq, List.mem_cons] at h
      rcases h with rfl | h
      · exact List.mem_cons_self _ _
      · exact List.mem_cons_of_mem _ (ih _ h)

theorem dedupAux_find? (l : List (Int × PVal)) (seen : List PVal) (v : PVal)
    (hv : ¬ v ∈ seen) :
    (dedupAux seen l).find? (fun p => p.2 = v) = l.find? (fun p => p.2 = v) := by
  induction l generalizing seen with
  | nil => rfl
  | cons p rest ih =>
    by_cases hp : p.2 ∈ seen
    · have hne : decide (p.2 = v) = false := decide_eq_false (fun hh => hv (hh ▸ hp))
      rw [dedupAux, if_pos hp, ih seen hv, List.find?_cons, hne]
    · rw [dedupAux, if_neg hp, List.find?_cons, List.find?_cons]
      by_cases hpv : p.2 = v
      · simp [hpv]
      · rw [decide_eq_false hpv]
        exact ih (p.2 :: seen) (by simp [not_or]; exact ⟨fun hh => hpv hh.symm, hv⟩)

/-! ### find? and zip lemmas -/

theorem find?_congr_mem {α : Type} (l : List α) (P Q : α → Bool)
    (h : ∀ p ∈ l, P p = Q p) : l.find? P = l.find? Q := by
  induction l with
  | nil => rfl
  | cons a rest ih =>
    rw [List.find?_cons, List.find?_cons, h a (by simp)]
    cases hQ : Q a
    · exact ih (fun p hp => h p (List.mem_cons_of_mem _ hp))
    · rfl

theorem zip_find_firstIdx (c : List PVal) (xs : List Int) (v : PVal)
    (hv : v ∈ c) (hlen : xs.length = c.length) :
    (xs.zip c).find? (fun p => p.2 = v) = some (xs.getD (firstIdx c v) 0, v) := by
  induction c generalizing xs with
  | nil => cases hv
  | cons w c' ih =>
    cases xs with
    | nil => simp at hlen
    | cons x xs' =>
      rw [List.zip_cons_cons, List.find?_cons]
      by_cases hw : w = v
      · subst hw
        simp [firstIdx]
      · have hv' : v ∈ c' := by
          rcases List.mem_cons.mp hv with rfl | hv'
          · exact absurd rfl hw
          · exact hv'
        have hlen' : xs'.length = c'.length := by simpa using hlen
        rw [decide_eq_false hw]
        rw [ih xs' hv' hlen', firstIdx, if_neg hw, List.getD_cons_succ]

theorem alistLookup_map_mk (l : List (Int × PVal)) (k : String) :
    alistLookup k (l.map (fun p => ("chr" ++ p.2.format, p.1)))
      = (l.find? (fun p => "chr" ++ p.2.format = k)).map Prod.fst := by
  induction l with
  | nil => rfl
  | cons p rest ih =>
    rw [List.map_cons, alistLookup, List.find?_cons]
    by_cases h : "chr" ++ p.2.format = k
    · simp [h]
    · rw [if_neg h, decide_eq_false h, ih]

theorem chr_append_inj {a b : String} (h : "chr" ++ a = "chr" ++ b) : a = b := by
  have h2 := congrArg String.data h
  rw [String.data_append, String.data_append] at h2
  exact String.ext (List.append_cancel_left h2)

/-! ### Concrete fixtures -/

/-- The two-bin result table of the spec's end-to-end scenario: rows
(chrom "chr1", abspos 100) and (chrom "chr2", abspos 500), with three cell
columns. -/
def tblC2 : ResultTable :=
  ⟨[0, 1],
   [("chrom", [PVal.s "chr1", PVal.s "chr2"]),
    ("chrompos", [PVal.i 10, PVal.i 20]),
    ("abspos", [PVal.i 100, PVal.i 500]),
    ("c1", [PVal.i 7, PVal.i 8]),
    ("c2", [PVal.i 9, PVal.i 10]),
    ("c3", [PVal.i 11, PVal.i 12])]⟩

/-- A one-row result table whose chromosome column holds the bare label
"7". -/
def tblC3 : ResultTable :=
  ⟨[0],
   [("chrom", [PVal.s "7"]),
    ("chrompos", [PVal.i 1]),
    ("abspos", [PVal.i 42]),
    ("cellA", [PVal.i 5])]⟩

/-- A POSIX environment with every dependency available; the external
routine is stubbed to return `tblC2`. -/
def envRun : Env :=
  { osName := "posix", cpuCount := 8, rpy2Available := true, copykatAvailable := true,
    stringrAvailable := true, external := fun _ => tblC2 }

/-- An environment in which rpy2 is missing. -/
def envNoR : Env :=
  { osName := "posix", cpuCount := 2, rpy2Available := false, copykatAvailable := false,
    stringrAvailable := true, external := fun _ => tblC2 }

/-- A 3-cell × 4-gene analysis object (the spec's end-to-end scenario). -/
def adataRun : AnnData :=
  { X := ExprMat.dense ⟨3, 4, [[0, 1, 2, 3], [4, 5, 6, 7], [8, 9, 10, 11]]⟩,
    layers := [], obsNames := ["c1", "c2", "c3"], varNames := ["G1", "G2", "G3", "G4"],
    uns := [], obsm := [] }

/-- Equality of `Except` values is decidable when it is on both sides. -/
instance {ε α : Type} [DecidableEq ε] [DecidableEq α] : DecidableEq (Except ε α) := fun
  | .error e, .error f =>
    if h : e = f then .isTrue (congrArg Except.error h)
    else .isFalse (fun hh => h (by cases hh; rfl))
  | .error _, .ok _ => .isFalse (fun hh => Except.noConfusion hh)
  | .ok _, .error _ => .isFalse (fun hh => Except.noConfusion hh)
  | .ok a, .ok b =>
    if h : a = b then .isTrue (congrArg Except.ok h)
    else .isFalse (fun hh => h (by cases hh; rfl))

/-- Two analysis objects that agree on `uns` and `obsm` lead to
post-processing results that agree on the returned matrix and on the two
written annotation slots (the rest of the object is merely carried
through). -/
theorem postProcess_proj (a1 a2 : AnnData) (k : String) (i : Bool) (t : ResultTable)
    (hu : a1.uns = a2.uns) (ho : a1.obsm = a2.obsm) :
    Except.map Prod.snd (postProcess a1 k i t) = Except.map Prod.snd (postProcess a2 k i t) ∧
    Except.map (fun p => p.1.uns) (postProcess a1 k i t)
      = Except.map (fun p => p.1.uns) (postProcess a2 k i t) ∧
    Except.map (fun p => p.1.obsm) (postProcess a1 k i t)
      = Except.map (fun p => p.1.obsm) (postProcess a2 k i t) := by
  cases hcp : chromPosOf t with
  | error e => simp [postProcess, hcp]
  | ok cp =>
    cases hout : outputOf t with
    | error e => simp [postProcess, hcp, hout]
    | ok out => cases i <;> simp [postProcess, hcp, hout, hu, ho, Except.map]

/-! ### Claim theorems -/

/-- C5: two input expression matrices holding identical numeric values,
one sparse and one dense, are converted to the same dense data for the
external routine (`expr.T.toarray()` versus `expr.T`), and hence the two
adapter calls agree on the returned matrix and on both written annotation
slots (the returned analysis object necessarily still stores the caller's
own input matrix in its `X` field, which is the lone difference). -/
theorem copykat_sparse_dense_equiv (env : Env) (adata : AnnData) (s : SparseMat)
    (d : DenseMat) (gene_ids : String) (segmentation_cut : Rat) (distance s_name : String)
    (min_genes_chr : Nat) (key_added : String) (inplace : Bool) (layer : Option String)
    (n_jobs : Option Nat) (h : SparseMat.toarray s = d) :
    convertExpr (ExprMat.sparse s) = convertExpr (ExprMat.dense d) ∧
    Except.map Prod.snd (copykat env { adata with X := ExprMat.sparse s } gene_ids
        segmentation_cut distance s_name min_genes_chr key_added inplace layer n_jobs)
      = Except.map Prod.snd (copykat env { adata with X := ExprMat.dense d } gene_ids
        segmentation_cut distance s_name min_genes_chr key_added inplace layer n_jobs) ∧
    Except.map (fun p => p.1.uns) (copykat env { adata with X := ExprMat.sparse s } gene_ids
        segmentation_cut distance s_name min_genes_chr key_added inplace layer n_jobs)
      = Except.map (fun p => p.1.uns) (copykat env { adata with X := ExprMat.dense d } gene_ids
        segmentation_cut distance s_name min_genes_chr key_added inplace layer n_jobs) ∧
    Except.map (fun p => p.1.obsm) (copykat env { adata with X := ExprMat.sparse s } gene_ids
        segmentation_cut distance s_name min_genes_chr key_added inplace layer n_jobs)
      = Except.map (fun p => p.1.obsm) (copykat env { adata with X := ExprMat.dense d } gene_ids
        segmentation_cut distance s_name min_genes_chr key_added inplace layer n_jobs) := by
  have hc : convertExpr (ExprMat.sparse s) = convertExpr (ExprMat.dense d) :=
    convertExpr_sparse_dense s d h
  refine ⟨hc, ?_⟩
  by_cases h1 : env.rpy2Available = false
  · simp [copykat, h1]
  · by_cases h2 : (env.copykatAvailable && env.stringrAvailable) = false
    · simp [copykat, h1, h2]
    · cases layer with
      | some l => simp [copykat, h1, h2]
      | none =>
        have hp := postProcess_proj { adata with X := ExprMat.sparse s }
          { adata with X := ExprMat.dense d } key_added inplace
          (relabelTable (env.external (mkCall (convertExpr (ExprMat.dense d)) adata.varNames
            adata.obsNames gene_ids segmentation_cut distance s_name min_genes_chr
            (effectiveNJobs env.osName env.cpuCount n_jobs)))) rfl rfl
        refine ⟨?_, ?_, ?_⟩
        · simpa [copykat, h1, h2, hc] using hp.1
        · simpa [copykat, h1, h2, hc] using hp.2.1
        · simpa [copykat, h1, h2, hc] using hp.2.2

/-- Sparse fixture for the C5 witness. -/
def sW : SparseMat := ⟨2, 2, [(0, 0, 5), (1, 1, 7)]⟩

/-- Dense form of `sW`. -/
def dW : DenseMat := ⟨2, 2, [[5, 0], [0, 7]]⟩

/-- Witness for C5 at concrete matrices. -/
theorem copykat_sparse_dense_equiv_witness :
    convertExpr (ExprMat.sparse sW) = convertExpr (ExprMat.dense dW) ∧
    Except.map Prod.snd (copykat envRun { adataRun with X := ExprMat.sparse sW } "S"
        (1/10 : Rat) "euclidean" "copykat_result" 5 "cnv" true none none)
      = Except.map Prod.snd (copykat envRun { adataRun with X := ExprMat.dense dW } "S"
        (1/10 : Rat) "euclidean" "copykat_result" 5 "cnv" true none none) ∧
    Except.map (fun p => p.1.uns) (copykat envRun { adataRun with X := ExprMat.sparse sW } "S"
        (1/10 : Rat) "euclidean" "copykat_result" 5 "cnv" true none none)
      = Except.map (fun p => p.1.uns) (copykat envRun { adataRun with X := ExprMat.dense dW } "S"
        (1/10 : Rat) "euclidean" "copykat_result" 5 "cnv" true none none) ∧
    Except.map (fun p => p.1.obsm) (copykat envRun { adataRun with X := ExprMat.sparse sW } "S"
        (1/10 : Rat) "euclidean" "copykat_result" 5 "cnv" true none none)
      = Except.map (fun p => p.1.obsm) (copykat envRun { adataRun with X := ExprMat.dense dW } "S"
        (1/10 : Rat) "euclidean" "copykat_result" 5 "cnv" true none none) :=
  copykat_sparse_dense_equiv envRun adataRun sW dW "S" (1/10 : Rat) "euclidean"
    "copykat_result" 5 "cnv" true none none (by decide)

/-- C6: a call that names a layer hits the unbound name `tmp_adata` of
line 97 and fails with a `NameError` before reaching the conversion step;
it never reads the named layer (here `adataRun` does not even have one). -/
theorem copykat_layer_name_error :
    copykat envRun adataRun "S" (1/10 : Rat) "euclidean" "copykat_result" 5 "cnv" true
        (some "counts") none = Except.error (PyError.nameError "tmp_adata") := by
  decide

/-- C7: when rpy2 or either required R package is unavailable, the call
fails with the corresponding ImportError message naming the missing
component.  The conclusion is a fixed error value for every analysis
object and every external routine, so the failure precedes any conversion,
transfer, or side effect. -/
theorem copykat_dependency_missing (env : Env) (adata : AnnData) (gene_ids : String)
    (segmentation_cut : Rat) (distance s_name : String) (min_genes_chr : Nat)
    (key_added : String) (inplace : Bool) (layer : Option String) (n_jobs : Option Nat)
    (h : env.rpy2Available = false ∨ env.copykatAvailable = false ∨
      env.stringrAvailable = false) :
    (env.rpy2Available = false →
      copykat env adata gene_ids segmentation_cut distance s_name min_genes_chr key_added
          inplace layer n_jobs
        = Except.error (PyError.importError "copyKAT requires rpy2 to be installed. ")) ∧
    (env.rpy2Available = true →
      copykat env adata gene_ids segmentation_cut distance s_name min_genes_chr key_added
          inplace layer n_jobs
        = Except.error (PyError.importError
            "copyKAT requires a valid R installation with the following packages: copykat, stringr")) := by
  constructor
  · intro hr
    simp [copykat, hr]
  · intro hr
    have hpkg : (env.copykatAvailable && env.stringrAvailable) = false := by
      rcases h with h | h | h
      · rw [h] at hr
        cases hr
      · simp [h]
      · simp [h]
    simp [copykat, hr, hpkg]

/-- Witness for C7 in an environment with rpy2 missing. -/
theorem copykat_dependency_missing_witness :
    (envNoR.rpy2Available = false →
      copykat envNoR adataRun "S" (1/10 : Rat) "euclidean" "copykat_result" 5 "cnv" true
          none none
        = Except.error (PyError.importError "copyKAT requires rpy2 to be installed. ")) ∧
    (envNoR.rpy2Available = true →
      copykat envNoR adataRun "S" (1/10 : Rat) "euclidean" "copykat_result" 5 "cnv" true
          none none
        = Except.error (PyError.importError
            "copyKAT requires a valid R installation with the following packages: copykat, stringr")) :=
  copykat_dependency_missing envNoR adataRun "S" (1/10 : Rat) "euclidean" "copykat_result" 5
    "cnv" true none none (Or.inl rfl)

/-- C8: when the dependencies are present and no layer is named, the call
factors through the external routine applied to a single call record whose
worker count is 1 on every non-POSIX platform, the caller's value when one
is given on POSIX, and `cpu_count()` when none is given on POSIX. -/
theorem copykat_worker_count (env : Env) (adata : AnnData) (gene_ids : String)
    (segmentation_cut : Rat) (distance s_name : String) (min_genes_chr : Nat)
    (key_added : String) (inplace : Bool) (n_jobs : Option Nat)
    (h1 : env.rpy2Available = true) (h2 : env.copykatAvailable = true)
    (h3 : env.stringrAvailable = true) :
    ∃ call : ExternalCall,
      copykat env adata gene_ids segmentation_cut distance s_name min_genes_chr key_added
          inplace none n_jobs
        = postProcess adata key_added inplace (relabelTable (env.external call)) ∧
      (env.osName ≠ "posix" → call.n_cores = 1) ∧
      (env.osName = "posix" → ∀ k, n_jobs = some k → call.n_cores = k) ∧
      (env.osName = "posix" → n_jobs = none → call.n_cores = env.cpuCount) := by
  refine ⟨mkCall (convertExpr adata.X) adata.varNames adata.obsNames gene_ids
    segmentation_cut distance s_name min_genes_chr
    (effectiveNJobs env.osName env.cpuCount n_jobs), ?_, ?_, ?_, ?_⟩
  · simp [copykat, h1, h2, h3]
  · intro hos
    simp [mkCall, effectiveNJobs, hos]
  · intro hos k hk
    simp [mkCall, effectiveNJobs, hos, hk]
  · intro hos hk
    simp [mkCall, effectiveNJobs, hos, hk]

/-- Witness for C8 on a POSIX environment with an explicit worker count. -/
theorem copykat_worker_count_witness :
    ∃ call : ExternalCall,
      copykat envRun adataRun "S" (1/10 : Rat) "euclidean" "copykat_result" 5 "cnv" true
          none (some 3)
        = postProcess adataRun "cnv" true (relabelTable (envRun.external call)) ∧
      (envRun.osName ≠ "posix" → call.n_cores = 1) ∧
      (envRun.osName = "posix" → ∀ k, (some 3 : Option Nat) = some k → call.n_cores = k) ∧
      (envRun.osName = "posix" → (some 3 : Option Nat) = none →
        call.n_cores = envRun.cpuCount) :=
  copykat_worker_count envRun adataRun "S" (1/10 : Rat) "euclidean" "copykat_result" 5 "cnv"
    true (some 3) rfl rfl rfl

/-- C9: the relabeling step of line 121 maps every column label through
the period-to-hyphen replacement and changes nothing else; the example
label "AAA.CAT.1" becomes "AAA-CAT-1", and a label without periods is
unchanged. -/
theorem copykat_column_relabel (t : ResultTable) (s : String)
    (hs : ∀ ch ∈ s.data, ch ≠ '.') :
    (relabelTable t).index = t.index ∧
    (relabelTable t).cols.map Prod.fst = t.cols.map (fun c => replacePeriods c.1) ∧
    (relabelTable t).cols.map Prod.snd = t.cols.map Prod.snd ∧
    replacePeriods "AAA.CAT.1" = "AAA-CAT-1" ∧
    replacePeriods s = s := by
  refine ⟨rfl, ?_, ?_, by decide, ?_⟩
  · simp only [relabelTable, List.map_map]
    rfl
  · simp only [relabelTable, List.map_map]
    rfl
  · apply String.ext
    show s.data.map (fun ch => if ch = '.' then '-' else ch) = s.data
    conv_rhs => rw [← List.map_id s.data]
    apply List.map_congr_left
    intro ch hch
    simp [hs ch hch]

/-- Witness for C9 at `tblC3` and a period-free label. -/
theorem copykat_column_relabel_witness :
    (relabelTable tblC3).index = tblC3.index ∧
    (relabelTable tblC3).cols.map Prod.fst = tblC3.cols.map (fun c => replacePeriods c.1) ∧
    (relabelTable tblC3).cols.map Prod.snd = tblC3.cols.map Prod.snd ∧
    replacePeriods "AAA.CAT.1" = "AAA-CAT-1" ∧
    replacePeriods "ABC" = "ABC" :=
  copykat_column_relabel tblC3 "ABC" (by decide)

/-- C1: when the three metadata columns are present, the output matrix is
exactly the non-metadata columns' value lists: one row per remaining (cell)
column in table order, one entry per result row (bin); when the data
columns are labeled by the (period-replaced) cell identifiers in order,
row `i` is the column of `cellIds[i]`. -/
theorem output_matrix_drop_transpose (t : ResultTable) (cellIds : List String)
    (hmeta : metaLabels.all (fun l => t.cols.any (fun c => c.1 = l)) = true)
    (hWF : ∀ c ∈ t.cols, c.2.length = t.index.length)
    (hlbl : (dataColumns t).map Prod.fst = cellIds.map replacePeriods) :
    ∃ m, outputOf t = Except.ok m ∧ m = (dataColumns t).map Prod.snd ∧
      m.length = cellIds.length ∧
      (∀ r ∈ m, r.length = t.index.length) ∧
      ∀ i, i < cellIds.length →
        m.getD i [] = ((dataColumns t).getD i ("", [])).2 ∧
        ((dataColumns t).getD i ("", [])).1 = replacePeriods (cellIds.getD i "") := by
  have hlen : (dataColumns t).length = cellIds.length := by
    have h := congrArg List.length hlbl
    simpa using h
  have hd : dropMeta t = Except.ok (dataColumns t) := by
    rw [dropMeta, if_pos hmeta]
  have hok : outputOf t = Except.ok ((dataColumns t).map Prod.snd) := by
    rw [outputOf, hd]
    exact congrArg Except.ok
      (transposeLL_valuesOf t.index.length (dataColumns t)
        (fun c hc => hWF c (List.mem_of_mem_filter hc)))
  refine ⟨(dataColumns t).map Prod.snd, hok, rfl, ?_, ?_, ?_⟩
  · rw [List.length_map]
    exact hlen
  · intro r hr
    rcases List.mem_map.mp hr with ⟨cc, hcc, rfl⟩
    exact hWF cc (List.mem_of_mem_filter hcc)
  · intro i hi
    have hi' : i < (dataColumns t).length := by
      rw [hlen]
      exact hi
    constructor
    · rw [getD_map_of_lt Prod.snd (dataColumns t) [] hi',
        List.getD_eq_getElem (dataColumns t) ("", []) hi']
    · have h2 := congrArg (fun l => l.getD i "") hlbl
      simp only at h2
      rw [getD_map_of_lt Prod.fst (dataColumns t) "" hi',
        getD_map_of_lt replacePeriods cellIds "" hi] at h2
      rw [List.getD_eq_getElem (dataColumns t) ("", []) hi',
        List.getD_eq_getElem cellIds "" hi]
      exact h2

/-- Witness for C1 on the concrete table `tblC2` with three cells. -/
theorem output_matrix_drop_transpose_witness :
    outputOf tblC2 = Except.ok ((dataColumns tblC2).map Prod.snd) := by
  obtain ⟨m, h1, h2, -, -, -⟩ := output_matrix_drop_transpose tblC2 ["c1", "c2", "c3"]
    (by decide) (by decide) (by decide)
  rw [h1, h2]

/-- C2 counterexample: on the two-row table with chrom "chr1"/abspos 100
and chrom "chr2"/abspos 500, the code produces `{"chrchr1": 0,
"chrchr2": 1}` — the keys get another "chr" prefix and the values are the
row indices from `itertuples`, not the absolute positions — so the claimed
map `{"chr1": 100, "chr2": 500}` is not produced and its keys are absent. -/
theorem chrom_pos_abspos_counterexample :
    chromPosOf tblC2 = Except.ok [("chrchr1", 0), ("chrchr2", 1)] ∧
    chromPosOf tblC2 ≠ Except.ok [("chr1", 100), ("chr2", 500)] ∧
    Except.map (alistLookup "chr1") (chromPosOf tblC2) = Except.ok none ∧
    Except.map (alistLookup "chr2") (chromPosOf tblC2) = Except.ok none := by
  decide

/-- C2 as amended: for each value `v` of the chromosome column (formatted
injectively), the mapping associates the key `"chr" ++ str(v)` with the
index label of the first row whose chromosome equals `v` — the row index
from `itertuples`, not the absolute-position column. -/
theorem chrom_pos_first_index_spec (t : ResultTable) (c : List PVal)
    (hc : t.cols.find? (fun col => col.1 = "chrom") = some ("chrom", c))
    (hlen : t.index.length = c.length)
    (hinj : ∀ v ∈ c, ∀ w ∈ c, PVal.format v = PVal.format w → v = w) :
    ∃ m, chromPosOf t = Except.ok m ∧
      ∀ v ∈ c, alistLookup ("chr" ++ v.format) m
        = some (t.index.getD (firstIdx c v) 0) := by
  refine ⟨buildChromPos (dedupBySnd (t.index.zip c)), by simp [chromPosOf, hc], ?_⟩
  intro v hv
  have hsub : ∀ p ∈ dedupBySnd (t.index.zip c), p.2 ∈ c := by
    intro p hp
    exact (List.of_mem_zip (dedupAux_subset _ _ _ hp)).2
  have hkeysnodup :
      ((dedupBySnd (t.index.zip c)).map (fun p => "chr" ++ p.2.format)).Nodup := by
    have h1 : ((dedupBySnd (t.index.zip c)).map Prod.snd).Nodup := dedupAux_snd_nodup _ _
    have h2 : (dedupBySnd (t.index.zip c)).map (fun p => "chr" ++ p.2.format)
        = ((dedupBySnd (t.index.zip c)).map Prod.snd).map (fun w => "chr" ++ w.format) := by
      rw [List.map_map]
      rfl
    rw [h2]
    apply List.Nodup.map_on ?_ h1
    intro x hx y hy hxy
    rcases List.mem_map.mp hx with ⟨p, hp, rfl⟩
    rcases List.mem_map.mp hy with ⟨q, hq, rfl⟩
    exact hinj p.2 (hsub p hp) q.2 (hsub q hq) (chr_append_inj hxy)
  have hbuild : buildChromPos (dedupBySnd (t.index.zip c))
      = (dedupBySnd (t.index.zip c)).map (fun p => ("chr" ++ p.2.format, p.1)) := by
    have h := foldlSet_eq_append (dedupBySnd (t.index.zip c)) []
      (by simpa using hkeysnodup)
    simpa [buildChromPos] using h
  rw [hbuild, alistLookup_map_mk]
  have hcongr : (dedupBySnd (t.index.zip c)).find?
        (fun p => "chr" ++ p.2.format = "chr" ++ v.format)
      = (dedupBySnd (t.index.zip c)).find? (fun p => p.2 = v) := by
    apply find?_congr_mem
    intro p hp
    apply decide_eq_decide.mpr
    constructor
    · intro hh
      exact hinj p.2 (hsub p hp) v hv (chr_append_inj hh)
    · intro hh
      rw [hh]
  rw [hcongr, dedupBySnd, dedupAux_find? _ _ _ (by simp),
    zip_find_firstIdx c t.index v hv hlen]
  rfl

/-- Witness for C2's amended statement at the concrete table `tblC2`. -/
theorem chrom_pos_first_index_spec_witness :
    ∃ m, chromPosOf tblC2 = Except.ok m ∧
      alistLookup ("chr" ++ PVal.format (PVal.s "chr2")) m
        = some (tblC2.index.getD (firstIdx [PVal.s "chr1", PVal.s "chr2"] (PVal.s "chr2")) 0) := by
  obtain ⟨m, h1, h2⟩ := chrom_pos_first_index_spec tblC2 [PVal.s "chr1", PVal.s "chr2"]
    (by decide) (by decide) (by decide)
  exact ⟨m, h1, h2 (PVal.s "chr2") (by decide)⟩

/-- C3 counterexample: on a table whose chromosome column holds the bare
label "7", the mapping's key list is `["chr7"]`, and "chr7" is not a label
appearing in the chromosome column — the key set is not the set of labels
present in the column. -/
theorem chrom_pos_keys_counterexample :
    Except.map (List.map Prod.fst) (chromPosOf tblC3) = Except.ok ["chr7"] ∧
    tblC3.cols.find? (fun col => col.1 = "chrom") = some ("chrom", [PVal.s "7"]) ∧
    ¬ ∃ v ∈ [PVal.s "7"], "chr7" = PVal.format v := by
  decide

/-- C3 as amended: the key list of the mapping is duplicate-free and its
members are exactly the strings `"chr" ++ str(v)` for the values `v`
present in the chromosome column (so keys carry an extra "chr" prefix and
need not be labels occurring in the column); every value of the mapping is
an integer row index. -/
theorem chrom_pos_keys_spec (t : ResultTable) (c : List PVal)
    (hc : t.cols.find? (fun col => col.1 = "chrom") = some ("chrom", c))
    (hlen : t.index.length = c.length) :
    ∃ m, chromPosOf t = Except.ok m ∧ (m.map Prod.fst).Nodup ∧
      ∀ k, k ∈ m.map Prod.fst ↔ ∃ v ∈ c, k = "chr" ++ v.format := by
  refine ⟨buildChromPos (dedupBySnd (t.index.zip c)), by simp [chromPosOf, hc], ?_, ?_⟩
  · have h := foldlSet_keys_nodup (dedupBySnd (t.index.zip c)) [] (by simp)
    simpa [buildChromPos] using h
  · intro k
    constructor
    · intro hk
      rcases (foldlSet_keys_mem (dedupBySnd (t.index.zip c)) [] k).mp
          (by simpa [buildChromPos] using hk) with h | ⟨p, hp, rfl⟩
      · simp at h
      · exact ⟨p.2, (List.of_mem_zip (dedupAux_subset _ _ _ hp)).2, rfl⟩
    · rintro ⟨v, hv, rfl⟩
      have hvz : v ∈ (t.index.zip c).map Prod.snd := by
        rw [List.map_snd_zip _ _ hlen.ge]
        exact hv
      have hvd : v ∈ (dedupBySnd (t.index.zip c)).map Prod.snd := by
        rw [dedupBySnd, dedupAux_mem_snd]
        exact ⟨hvz, by simp⟩
      rcases List.mem_map.mp hvd with ⟨p, hp, rfl⟩
      have h := (foldlSet_keys_mem (dedupBySnd (t.index.zip c)) []
        ("chr" ++ p.2.format)).mpr (Or.inr ⟨p, hp, rfl⟩)
      simpa [buildChromPos] using h

/-- Witness for C3's amended statement at the concrete table `tblC3`. -/
theorem chrom_pos_keys_spec_witness :
    ∃ m, chromPosOf tblC3 = Except.ok m ∧ (m.map Prod.fst).Nodup ∧
      ("chr7" ∈ m.map Prod.fst ↔ ∃ v ∈ [PVal.s "7"], "chr7" = "chr" ++ v.format) := by
  obtain ⟨m, h1, h2, h3⟩ := chrom_pos_keys_spec tblC3 [PVal.s "7"] (by decide) (by decide)
  exact ⟨m, h1, h2, h3 "chr7"⟩

/-- When the dependencies are available and no layer is named, `copykat`
is exactly the post-processing of the relabeled external result. -/
theorem copykat_unfold_ok (env : Env) (adata : AnnData) (gene_ids : String)
    (segmentation_cut : Rat) (distance s_name : String) (min_genes_chr : Nat)
    (key_added : String) (inplace : Bool) (n_jobs : Option Nat)
    (h1 : env.rpy2Available = true) (h2 : env.copykatAvailable = true)
    (h3 : env.stringrAvailable = true) :
    copykat env adata gene_ids segmentation_cut distance s_name min_genes_chr key_added
        inplace none n_jobs
      = postProcess adata key_added inplace
          (relabelTable (env.external (mkCall (convertExpr adata.X) adata.varNames
            adata.obsNames gene_ids segmentation_cut distance s_name min_genes_chr
            (effectiveNJobs env.osName env.cpuCount n_jobs)))) := by
  simp [copykat, h1, h2, h3]

/-- Inversion of a successful `copykat` call: the dependencies were
available, no layer was named, both post-processing steps succeeded, and
the result is the in-place update or the returned matrix accordingly. -/
theorem copykat_ok_inv (env : Env) (adata : AnnData) (gene_ids : String)
    (segmentation_cut : Rat) (distance s_name : String) (min_genes_chr : Nat)
    (key_added : String) (inplace : Bool) (layer : Option String) (n_jobs : Option Nat)
    (a' : AnnData) (r : Option (List (List PVal)))
    (hok : copykat env adata gene_ids segmentation_cut distance s_name min_genes_chr
        key_added inplace layer n_jobs = Except.ok (a', r)) :
    env.rpy2Available = true ∧ env.copykatAvailable = true ∧ env.stringrAvailable = true ∧
    layer = none ∧
    ∃ cp out,
      chromPosOf (relabelTable (env.external (mkCall (convertExpr adata.X) adata.varNames
          adata.obsNames gene_ids segmentation_cut distance s_name min_genes_chr
          (effectiveNJobs env.osName env.cpuCount n_jobs)))) = Except.ok cp ∧
      outputOf (relabelTable (env.external (mkCall (convertExpr adata.X) adata.varNames
          adata.obsNames gene_ids segmentation_cut distance s_name min_genes_chr
          (effectiveNJobs env.osName env.cpuCount n_jobs)))) = Except.ok out ∧
      ((inplace = true ∧ r = none ∧
          a' = { adata with uns := alistSet adata.uns key_added [("chr_pos", cp)],
                            obsm := alistSet adata.obsm ("X_" ++ key_added) out }) ∨
       (inplace = false ∧ a' = adata ∧ r = some out)) := by
  simp only [copykat] at hok
  split at hok
  · exact Except.noConfusion hok
  · rename_i h1
    split at hok
    · exact Except.noConfusion hok
    · rename_i h2
      have h1' : env.rpy2Available = true := by
        revert h1
        cases env.rpy2Available <;> simp
      have h2' : env.copykatAvailable = true ∧ env.stringrAvailable = true := by
        revert h2
        cases env.copykatAvailable <;> cases env.stringrAvailable <;> simp
      split at hok
      · exact Except.noConfusion hok
      · refine ⟨h1', h2'.1, h2'.2, rfl, ?_⟩
        rw [postProcess] at hok
        split at hok
        · exact Except.noConfusion hok
        · rename_i cp hcp
          split at hok
          · exact Except.noConfusion hok
          · rename_i out hout
            refine ⟨cp, out, hcp, hout, ?_⟩
            split at hok
            · rename_i hinp
              injection hok with hpair
              rw [Prod.mk.injEq] at hpair
              exact Or.inl ⟨by simpa using hinp, hpair.2.symm, hpair.1.symm⟩
            · rename_i hinp
              injection hok with hpair
              rw [Prod.mk.injEq] at hpair
              exact Or.inr ⟨by simpa using hinp, hpair.1.symm, hpair.2.symm⟩

/-- C4: on success with the in-place flag false, the analysis object is
returned unmodified together with the output matrix; with the flag true,
nothing is returned, the slot `key_added` of `uns` receives the
`{"chr_pos": ...}` wrapper, the slot `"X_" ++ key_added` of `obsm`
receives a matrix, and that matrix is exactly what the same call with the
flag false returns. -/
theorem copykat_inplace_contract (env : Env) (adata : AnnData) (gene_ids : String)
    (segmentation_cut : Rat) (distance s_name : String) (min_genes_chr : Nat)
    (key_added : String) (inplace : Bool) (layer : Option String) (n_jobs : Option Nat)
    (a' : AnnData) (r : Option (List (List PVal)))
    (hok : copykat env adata gene_ids segmentation_cut distance s_name min_genes_chr
        key_added inplace layer n_jobs = Except.ok (a', r)) :
    (inplace = false → a' = adata ∧ ∃ m, r = some m) ∧
    (inplace = true → r = none ∧ ∃ cp m,
        a'.uns = alistSet adata.uns key_added [("chr_pos", cp)] ∧
        a'.obsm = alistSet adata.obsm ("X_" ++ key_added) m ∧
        copykat env adata gene_ids segmentation_cut distance s_name min_genes_chr key_added
            false layer n_jobs = Except.ok (adata, some m)) := by
  obtain ⟨h1, h2, h3, hl, cp, out, hcp, hout, hcases⟩ :=
    copykat_ok_inv env adata gene_ids segmentation_cut distance s_name min_genes_chr
      key_added inplace layer n_jobs a' r hok
  subst hl
  constructor
  · intro hinp
    rcases hcases with ⟨hti, -, -⟩ | ⟨-, ha, hr⟩
    · rw [hinp] at hti
      cases hti
    · exact ⟨ha, out, hr⟩
  · intro hinp
    rcases hcases with ⟨-, hr, ha⟩ | ⟨hti, -, -⟩
    · subst ha
      refine ⟨hr, cp, out, rfl, rfl, ?_⟩
      rw [copykat_unfold_ok env adata gene_ids segmentation_cut distance s_name
        min_genes_chr key_added false n_jobs h1 h2 h3, postProcess, hcp, hout]
      rfl
    · rw [hinp] at hti
      cases hti

/-- Witness for C4: the result object of the concrete in-place run. -/
def adataRunOut : AnnData :=
  { X := adataRun.X, layers := [], obsNames := ["c1", "c2", "c3"],
    varNames := ["G1", "G2", "G3", "G4"],
    uns := [("cnv", [("chr_pos", [("chrchr1", 0), ("chrchr2", 1)])])],
    obsm := [("X_cnv", [[PVal.i 7, PVal.i 8], [PVal.i 9, PVal.i 10],
      [PVal.i 11, PVal.i 12]])] }

/-- Witness for C4 on the concrete in-place run. -/
theorem copykat_inplace_contract_witness :
    ((true : Bool) = false → adataRunOut = adataRun ∧
      ∃ m, (none : Option (List (List PVal))) = some m) ∧
    ((true : Bool) = true → (none : Option (List (List PVal))) = none ∧ ∃ cp m,
        adataRunOut.uns = alistSet adataRun.uns "cnv" [("chr_pos", cp)] ∧
        adataRunOut.obsm = alistSet adataRun.obsm ("X_" ++ "cnv") m ∧
        copykat envRun adataRun "S" (1/10 : Rat) "euclidean" "copykat_result" 5 "cnv"
            false none none = Except.ok (adataRun, some m)) :=
  copykat_inplace_contract envRun adataRun "S" (1/10 : Rat) "euclidean" "copykat_result" 5
    "cnv" true none none adataRunOut none (by decide)

/-- C10: a successful call never changes the expression matrix, the
layers, the cell-identifier index or the gene-identifier index; the only
annotation keys whose bindings can change are `key_added` in `uns` and
`"X_" ++ key_added` in `obsm`, and with the in-place flag false the object
is returned entirely unchanged.  (A failing call returns an error and no
object at all, leaving the caller's object untouched.) -/
theorem copykat_frame_effects (env : Env) (adata : AnnData) (gene_ids : String)
    (segmentation_cut : Rat) (distance s_name : String) (min_genes_chr : Nat)
    (key_added : String) (inplace : Bool) (layer : Option String) (n_jobs : Option Nat)
    (a' : AnnData) (r : Option (List (List PVal)))
    (hok : copykat env adata gene_ids segmentation_cut distance s_name min_genes_chr
        key_added inplace layer n_jobs = Except.ok (a', r)) :
    a'.X = adata.X ∧ a'.layers = adata.layers ∧ a'.obsNames = adata.obsNames ∧
    a'.varNames = adata.varNames ∧
    (∀ k, k ≠ key_added → alistLookup k a'.uns = alistLookup k adata.uns) ∧
    (∀ k, k ≠ "X_" ++ key_added → alistLookup k a'.obsm = alistLookup k adata.obsm) ∧
    (inplace = false → a' = adata) := by
  obtain ⟨-, -, -, -, cp, out, -, -, hcases⟩ :=
    copykat_ok_inv env adata gene_ids segmentation_cut distance s_name min_genes_chr
      key_added inplace layer n_jobs a' r hok
  rcases hcases with ⟨hinp, -, ha⟩ | ⟨-, ha, -⟩
  · subst ha
    refine ⟨rfl, rfl, rfl, rfl, ?_, ?_, ?_⟩
    · intro k hk
      exact alistLookup_set_other adata.uns k key_added [("chr_pos", cp)] hk
    · intro k hk
      exact alistLookup_set_other adata.obsm k ("X_" ++ key_added) out hk
    · intro hf
      rw [hinp] at hf
      cases hf
  · subst ha
    exact ⟨rfl, rfl, rfl, rfl, fun k _ => rfl, fun k _ => rfl, fun _ => rfl⟩

/-- Witness for C10 on the concrete in-place run. -/
theorem copykat_frame_effects_witness :
    adataRunOut.X = adataRun.X ∧ adataRunOut.layers = adataRun.layers ∧
    adataRunOut.obsNames = adataRun.obsNames ∧ adataRunOut.varNames = adataRun.varNames ∧
    (∀ k, k ≠ "cnv" → alistLookup k adataRunOut.uns = alistLookup k adataRun.uns) ∧
    (∀ k, k ≠ "X_" ++ "cnv" → alistLookup k adataRunOut.obsm = alistLookup k adataRun.obsm) ∧
    ((true : Bool) = false → adataRunOut = adataRun) :=
  copykat_frame_effects envRun adataRun "S" (1/10 : Rat) "euclidean" "copykat_result" 5
    "cnv" true none none adataRunOut none (by decide)
